import Mathlib

/-!
Shallow embedding of the 1-D particle relaxation scripts
(`physics/particles_1d_line_segment_*.py`).

Positions and forces are real-valued scalars in the source (Python
floats); we embed them as rationals `ℚ`, which makes every operation
exact and executable.  `np.sign` and `np.abs` are embedded as `sgn`
and `rabs`.  The Python exponent `FORCE_DECAY_POWER` is a non-negative
integer in every configuration, embedded as `ℕ`.

The multi-particle scripts (`..._04_02`, `..._n_02`) share the
`Particle` class verbatim; the per-tick loop in `update_graphics`
resets each particle's `total_force`, accumulates the pairwise force
against the left fixed particle, the right fixed particle and every
other member of the free list, and then *immediately* moves the
particle before the loop advances — so later particles read already
updated positions.  The embedding `tickAux` reproduces this in-place,
in-order mutation with an explicit `done`/`rest` split: `done` holds
the already-moved prefix of the list, `rest` the not-yet-processed
suffix.  Python's `mate_particle == particle` is identity of objects
(each list slot is a distinct object in the scripts), embedded as
exclusion of the particle's own list slot.
-/

namespace ParticlesRelax

/-- Embedding of `np.sign` on rationals: `+1`, `-1` or `0`. -/
def sgn (q : ℚ) : ℚ := if 0 < q then 1 else if q < 0 then -1 else 0

/-- Embedding of `np.abs` on rationals. -/
def rabs (q : ℚ) : ℚ := if q < 0 then -q else q

/-- The pairwise force law shared by all scripts
(`Particle.compute_force` body and the inline copies in the
single-particle script): with `dx = a - b`,
`0` when `dx == 0`, else `direction * np.sign(dx) / (np.abs(dx) ** decay)`. -/
def pairForce (dir : ℚ) (decay : ℕ) (a b : ℚ) : ℚ :=
  let dx := a - b
  if dx = 0 then 0 else dir * sgn dx / (rabs dx) ^ decay

/-- The legacy force law of `particles_1d_line_segment_03_02.py.py`:
`np.sign(dx) ** IS_REPULSIVE / (np.abs(dx) ** decay)` with
`IS_REPULSIVE ∈ {1, 0}` (`1`: repulsive, `0`: attractive per the
source comment), and the same `dx == 0` guard. -/
def legacyPairForce (isRep decay : ℕ) (a b : ℚ) : ℚ :=
  let dx := a - b
  if dx = 0 then 0 else (sgn dx) ^ isRep / (rabs dx) ^ decay

/-- The `Particle` class of the multi-particle scripts: a scalar
position, a display name, a display color, and the accumulated force
(`total_force`, initialised to `0` in `__init__`). -/
structure Particle where
  position : ℚ
  name : String
  color : String
  total_force : ℚ
deriving DecidableEq

/-- Constructor `Particle.__init__(position, name, color)`. -/
def Particle.init (position : ℚ) (name color : String) : Particle :=
  ⟨position, name, color, 0⟩

/-- Method `Particle.compute_force(mate_particle, direction, FORCE_DECAY)`:
adds the pairwise contribution to `total_force`. -/
def Particle.compute_force (p : Particle) (mate : Particle) (dir : ℚ)
    (decay : ℕ) : Particle :=
  { p with total_force := p.total_force + pairForce dir decay p.position mate.position }

/-- Method `Particle.move(gain)`: `position += gain * total_force`. -/
def Particle.move (p : Particle) (gain : ℚ) : Particle :=
  { p with position := p.position + gain * p.total_force }

/-- One loop body of `update_graphics` for one free particle `p`:
reset `total_force` to `0`, accumulate the force from the left fixed
particle, the right fixed particle, and each particle of `mates` (the
other free particles, in list order), then `move(gain)`. -/
def stepParticle (pL pR : Particle) (dir : ℚ) (decay : ℕ) (gain : ℚ)
    (p : Particle) (mates : List Particle) : Particle :=
  let p0 : Particle := { p with total_force := 0 }
  let p1 := (p0.compute_force pL dir decay).compute_force pR dir decay
  let p2 := mates.foldl (fun q m => q.compute_force m dir decay) p1
  p2.move gain

/-- The free-particle loop of `update_graphics` in the multi-particle
scripts.  `done` is the prefix of the free list already processed this
tick (holding updated positions, in order); `rest` is the suffix still
to process (pre-tick positions).  The current particle's mates are
`done ++ rest`: every other list slot, earlier slots already moved. -/
def tickAux (pL pR : Particle) (dir : ℚ) (decay : ℕ) (gain : ℚ) :
    List Particle → List Particle → List Particle
  | _, [] => []
  | done, p :: rest =>
    let q := stepParticle pL pR dir decay gain p (done ++ rest)
    q :: tickAux pL pR dir decay gain (done ++ [q]) rest

/-- One full tick of `update_graphics` on the free-particle list. -/
def tick (pL pR : Particle) (dir : ℚ) (decay : ℕ) (gain : ℚ)
    (ps : List Particle) : List Particle :=
  tickAux pL pR dir decay gain [] ps

/-- Runs `n` successive ticks. -/
def ticks (pL pR : Particle) (dir : ℚ) (decay : ℕ) (gain : ℚ) (n : ℕ)
    (ps : List Particle) : List Particle :=
  (tick pL pR dir decay gain)^[n] ps

/-- Variant tick that does NOT skip the particle's own slot in the
mate loop: the current particle itself (at its pre-move position, as
it stands when the mate loop runs) is included among the mates. -/
def tickAllAux (pL pR : Particle) (dir : ℚ) (decay : ℕ) (gain : ℚ) :
    List Particle → List Particle → List Particle
  | _, [] => []
  | done, p :: rest =>
    let q := stepParticle pL pR dir decay gain p (done ++ p :: rest)
    q :: tickAllAux pL pR dir decay gain (done ++ [q]) rest

/-- One tick of the no-self-exclusion variant. -/
def tickAll (pL pR : Particle) (dir : ℚ) (decay : ℕ) (gain : ℚ)
    (ps : List Particle) : List Particle :=
  tickAllAux pL pR dir decay gain [] ps

/-- The module-level state of the multi-particle scripts: the two
fixed particles `particle_L`, `particle_R` and the free list
`particles`. -/
structure SimState where
  particle_L : Particle
  particle_R : Particle
  particles : List Particle
deriving DecidableEq

/-- The state mutation performed by one `update_graphics` call: the
free list is replaced by its ticked value; `particle_L` and
`particle_R` are read but never written. -/
def updateGraphics (dir : ℚ) (decay : ℕ) (gain : ℚ) (s : SimState) :
    SimState :=
  { s with particles := tick s.particle_L s.particle_R dir decay gain s.particles }

/-- Runs `n` animation frames of the multi-particle scripts. -/
def runSim (dir : ℚ) (decay : ℕ) (gain : ℚ) (n : ℕ) (s : SimState) :
    SimState :=
  (updateGraphics dir decay gain)^[n] s

/-- One `update_graphics` call of the single-free-particle script
(`particles_1d_line_segment_03_02.py`): the two inline force blocks
(`dx = x - L`, guarded division; `dx = x - R`, guarded division)
followed by the position update. -/
def update03 (L R dir : ℚ) (decay : ℕ) (gain x : ℚ) : ℚ :=
  let force_left_particle := pairForce dir decay x L
  let force_right_particle := pairForce dir decay x R
  x + gain * (force_left_particle + force_right_particle)

/-- Runs `n` frames of the single-free-particle script. -/
def run03 (L R dir : ℚ) (decay : ℕ) (gain : ℚ) (n : ℕ) (x : ℚ) : ℚ :=
  (update03 L R dir decay gain)^[n] x

/-! Configuration constants of the scripts. -/

/-- Constant `PARTICLE_LEFT_POSITION = 0` (all scripts). -/
def PARTICLE_LEFT_POSITION : ℚ := 0

/-- Constant `PARTICLE_RIGHT_POSITION = 6` (all scripts). -/
def PARTICLE_RIGHT_POSITION : ℚ := 6

/-- Constant `FORCE_DECAY_POWER = 1` (all scripts). -/
def FORCE_DECAY_POWER : ℕ := 1

/-- Constant `FORCE_POSITION_GAIN = 0.1` (single-particle script). -/
def FORCE_POSITION_GAIN_03 : ℚ := 1 / 10

/-- Constant `FORCE_POSITION_GAIN = 0.03` (multi-particle scripts). -/
def FORCE_POSITION_GAIN_N : ℚ := 3 / 100

/-- Value `direction = 1` (`IS_REPULSIVE` is true in every configuration). -/
def directionRepulsive : ℚ := 1

/-- The free particle of the single-particle script starts at `1`. -/
def particleFreeInit : ℚ := 1

/-- The position sequence of the single-free-particle script as
configured in the source: boundaries `0` and `6`, repulsive,
`decay = 1`, `gain = 0.1`, start at `1`. -/
def seq03 (n : ℕ) : ℚ :=
  run03 PARTICLE_LEFT_POSITION PARTICLE_RIGHT_POSITION directionRepulsive
    FORCE_DECAY_POWER FORCE_POSITION_GAIN_03 n particleFreeInit

/-- The net force a particle at `x` accumulates in one loop body:
left fixed, right fixed, then each mate position. -/
def netForce (lpos rpos dir : ℚ) (decay : ℕ) (x : ℚ) (mates : List ℚ) : ℚ :=
  pairForce dir decay x lpos + pairForce dir decay x rpos
    + (mates.map (fun m => pairForce dir decay x m)).sum

/-! Positions-level model: the tick depends on the particles only
through their positions; the functions below make that dependence
explicit and are related to the full tick by `tickAux_map_position`. -/

/-- Positions-level loop body. -/
def posStep (lpos rpos dir : ℚ) (decay : ℕ) (gain x : ℚ) (mates : List ℚ) : ℚ :=
  x + gain * netForce lpos rpos dir decay x mates

/-- Positions-level tick loop. -/
def posTickAux (lpos rpos dir : ℚ) (decay : ℕ) (gain : ℚ) :
    List ℚ → List ℚ → List ℚ
  | _, [] => []
  | done, x :: rest =>
    let y := posStep lpos rpos dir decay gain x (done ++ rest)
    y :: posTickAux lpos rpos dir decay gain (done ++ [y]) rest

/-- Positions-level tick. -/
def posTick (lpos rpos dir : ℚ) (decay : ℕ) (gain : ℚ) (xs : List ℚ) : List ℚ :=
  posTickAux lpos rpos dir decay gain [] xs

/-! Concrete particles of the `..._04_02` script (and a symmetric
variant used to probe mirror invariance). -/

/-- Source line `particle_L = Particle(PARTICLE_LEFT_POSITION, 'L', 'k')`. -/
def particle_L : Particle := ⟨PARTICLE_LEFT_POSITION, "L", "k", 0⟩

/-- Source line `particle_R = Particle(PARTICLE_RIGHT_POSITION, 'R', 'k')`. -/
def particle_R : Particle := ⟨PARTICLE_RIGHT_POSITION, "R", "k", 0⟩

/-- Source line `particle_1 = Particle(1.00, '1', 'ro')`. -/
def particle_1 : Particle := ⟨1, "1", "ro", 0⟩

/-- Source line `particle_2 = Particle(2.00, '2', 'go')`. -/
def particle_2 : Particle := ⟨2, "2", "go", 0⟩

/-- A free particle at `2`: with `particleSym2` a configuration
symmetric about the segment midpoint `3`. -/
def particleSym1 : Particle := ⟨2, "1", "ro", 0⟩

/-- A free particle at `4`, the mirror image of `particleSym1`. -/
def particleSym2 : Particle := ⟨4, "2", "go", 0⟩

/-! ### Basic lemmas about force accumulation -/

theorem compute_force_def (p mate : Particle) (dir : ℚ) (decay : ℕ) :
    p.compute_force mate dir decay =
      { p with total_force := p.total_force + pairForce dir decay p.position mate.position } :=
  rfl

theorem foldl_compute_force (dir : ℚ) (decay : ℕ) (ms : List Particle)
    (p : Particle) :
    ms.foldl (fun q m => q.compute_force m dir decay) p =
      { p with total_force := p.total_force +
          ((ms.map Particle.position).map (fun m => pairForce dir decay p.position m)).sum } := by
  induction ms generalizing p with
  | nil => simp
  | cons m ms ih =>
    rw [List.foldl_cons, ih]
    simp [Particle.compute_force, add_assoc]

theorem stepParticle_eq (pL pR : Particle) (dir : ℚ) (decay : ℕ) (gain : ℚ)
    (p : Particle) (mates : List Particle) :
    stepParticle pL pR dir decay gain p mates =
      { p with
        position := p.position + gain *
          netForce pL.position pR.position dir decay p.position (mates.map Particle.position),
        total_force :=
          netForce pL.position pR.position dir decay p.position (mates.map Particle.position) } := by
  simp only [stepParticle]
  rw [foldl_compute_force]
  simp [Particle.compute_force, Particle.move, netForce, add_assoc]

theorem tickAux_length (pL pR : Particle) (dir : ℚ) (decay : ℕ) (gain : ℚ)
    (done rest : List Particle) :
    (tickAux pL pR dir decay gain done rest).length = rest.length := by
  induction rest generalizing done with
  | nil => rfl
  | cons p rest ih => simp [tickAux, ih]

/-- Gauss–Seidel characterization of the tick loop: the `i`-th output
particle is obtained by stepping the `i`-th input particle against the
*updated* positions of all earlier particles (plus `done`) and the
*pre-tick* positions of all later ones. -/
theorem tickAux_getD (pL pR : Particle) (dir : ℚ) (decay : ℕ) (gain : ℚ)
    (d : Particle) :
    ∀ (i : ℕ) (done rest : List Particle), i < rest.length →
      (tickAux pL pR dir decay gain done rest).getD i d =
        stepParticle pL pR dir decay gain (rest.getD i d)
          (done ++ (tickAux pL pR dir decay gain done rest).take i ++ rest.drop (i + 1)) := by
  intro i
  induction i with
  | zero =>
    intro done rest h
    match rest with
    | p :: rest => simp [tickAux]
  | succ i ih =>
    intro done rest h
    match rest with
    | p :: rest =>
      have h' : i < rest.length := by simpa using h
      simp only [tickAux, List.getD_cons_succ, List.take_succ_cons, List.drop_succ_cons]
      rw [ih (done ++ [stepParticle pL pR dir decay gain p (done ++ rest)]) rest h']
      simp

/-! ### The tick at the level of positions -/

theorem tickAux_map_position (pL pR : Particle) (dir : ℚ) (decay : ℕ)
    (gain : ℚ) (done rest : List Particle) :
    (tickAux pL pR dir decay gain done rest).map Particle.position =
      posTickAux pL.position pR.position dir decay gain
        (done.map Particle.position) (rest.map Particle.position) := by
  induction rest generalizing done with
  | nil => rfl
  | cons p rest ih =>
    have hq : (stepParticle pL pR dir decay gain p (done ++ rest)).position
        = posStep pL.position pR.position dir decay gain p.position
            (done.map Particle.position ++ rest.map Particle.position) := by
      rw [stepParticle_eq]
      simp [posStep]
    simp only [tickAux, List.map_cons, posTickAux]
    rw [ih (done ++ [stepParticle pL pR dir decay gain p (done ++ rest)])]
    simp [hq]

theorem tick_map_position (pL pR : Particle) (dir : ℚ) (decay : ℕ)
    (gain : ℚ) (ps : List Particle) :
    (tick pL pR dir decay gain ps).map Particle.position =
      posTick pL.position pR.position dir decay gain (ps.map Particle.position) := by
  simpa [tick, posTick] using tickAux_map_position pL pR dir decay gain [] ps

theorem ticks_map_position (pL pR : Particle) (dir : ℚ) (decay : ℕ)
    (gain : ℚ) (n : ℕ) (ps : List Particle) :
    (ticks pL pR dir decay gain n ps).map Particle.position =
      (posTick pL.position pR.position dir decay gain)^[n] (ps.map Particle.position) := by
  induction n with
  | zero => rfl
  | succ n ih =>
    simp only [ticks, Function.iterate_succ_apply'] at *
    rw [tick_map_position, ih]

/-! ### Oddness of the force law and midpoint equilibrium -/

theorem sgn_neg (q : ℚ) : sgn (-q) = -sgn q := by
  unfold sgn
  rcases lt_trichotomy q 0 with h | h | h
  · simp [h, neg_pos.mpr h, not_lt.mpr h.le, not_lt.mpr (neg_pos.mpr h).le]
  · simp [h]
  · simp [h, not_lt.mpr h.le, neg_neg_iff_pos.mpr h, not_lt.mpr (neg_nonpos.mpr h.le)]

theorem rabs_neg (q : ℚ) : rabs (-q) = rabs q := by
  unfold rabs
  rcases lt_trichotomy q 0 with h | h | h
  · simp [h, not_lt.mpr (neg_pos.mpr h).le]
  · simp [h]
  · simp [not_lt.mpr h.le, neg_neg_iff_pos.mpr h]

/-- The pairwise contribution is odd in the position difference. -/
theorem pairForce_anti (dir : ℚ) (decay : ℕ) (a b c d : ℚ)
    (h : a - b = -(c - d)) :
    pairForce dir decay a b = -pairForce dir decay c d := by
  simp only [pairForce]
  rw [h, sgn_neg, rabs_neg]
  by_cases hcd : c - d = 0
  · simp [hcd]
  · have h' : ¬(-(c - d) = 0) := neg_ne_zero.mpr hcd
    rw [if_neg h', if_neg hcd]
    ring

/-- A particle has zero pairwise force on itself (the `dx == 0` guard). -/
theorem pairForce_self (dir : ℚ) (decay : ℕ) (a : ℚ) :
    pairForce dir decay a a = 0 := by
  simp [pairForce]

/-- At the midpoint of the two fixed particles the two fixed
contributions cancel exactly. -/
theorem pairForce_midpoint (dir : ℚ) (decay : ℕ) (L R : ℚ) :
    pairForce dir decay ((L + R) / 2) L + pairForce dir decay ((L + R) / 2) R = 0 := by
  have h : (L + R) / 2 - L = -((L + R) / 2 - R) := by ring
  rw [pairForce_anti dir decay _ L _ R h]
  ring

theorem update03_midpoint (L R dir : ℚ) (decay : ℕ) (gain : ℚ) :
    update03 L R dir decay gain ((L + R) / 2) = (L + R) / 2 := by
  simp only [update03]
  rw [pairForce_midpoint]
  ring

theorem run03_midpoint (L R dir : ℚ) (decay : ℕ) (gain : ℚ) (n : ℕ) :
    run03 L R dir decay gain n ((L + R) / 2) = (L + R) / 2 := by
  induction n with
  | zero => rfl
  | succ n ih =>
    rw [run03, Function.iterate_succ_apply']
    rw [run03] at ih
    rw [ih, update03_midpoint]

/-! ### Reflection equivariance of the tick -/

theorem sum_map_neg (l : List ℚ) (f : ℚ → ℚ) :
    (l.map fun y => -(f y)).sum = -((l.map f).sum) := by
  induction l with
  | nil => simp
  | cons x l ih => simp [ih]; ring

theorem netForce_reflect (lpos rpos dir : ℚ) (decay : ℕ) (m x : ℚ)
    (mates : List ℚ) (hm : lpos + rpos = 2 * m) :
    netForce lpos rpos dir decay (2 * m - x) (mates.map fun y => 2 * m - y)
      = -netForce lpos rpos dir decay x mates := by
  have h1 : pairForce dir decay (2 * m - x) lpos = -pairForce dir decay x rpos := by
    apply pairForce_anti
    linarith
  have h2 : pairForce dir decay (2 * m - x) rpos = -pairForce dir decay x lpos := by
    apply pairForce_anti
    linarith
  have h3 : ∀ y : ℚ, pairForce dir decay (2 * m - x) (2 * m - y)
      = -pairForce dir decay x y := by
    intro y
    apply pairForce_anti
    ring
  unfold netForce
  rw [h1, h2, List.map_map]
  have h4 : (mates.map fun y => pairForce dir decay (2 * m - x) (2 * m - y)).sum
      = -((mates.map fun y => pairForce dir decay x y).sum) := by
    rw [show (fun y => pairForce dir decay (2 * m - x) (2 * m - y))
        = fun y => -(pairForce dir decay x y) from funext h3]
    exact sum_map_neg mates _
  rw [show ((fun mm => pairForce dir decay (2 * m - x) mm) ∘ fun y => 2 * m - y)
      = fun y => pairForce dir decay (2 * m - x) (2 * m - y) from rfl]
  rw [h4]
  ring

theorem posStep_reflect (lpos rpos dir : ℚ) (decay : ℕ) (gain m x : ℚ)
    (mates : List ℚ) (hm : lpos + rpos = 2 * m) :
    posStep lpos rpos dir decay gain (2 * m - x) (mates.map fun y => 2 * m - y)
      = 2 * m - posStep lpos rpos dir decay gain x mates := by
  unfold posStep
  rw [netForce_reflect lpos rpos dir decay m x mates hm]
  ring

theorem posTickAux_reflect (lpos rpos dir : ℚ) (decay : ℕ) (gain m : ℚ)
    (hm : lpos + rpos = 2 * m) :
    ∀ (rest done : List ℚ),
      posTickAux lpos rpos dir decay gain (done.map fun y => 2 * m - y)
          (rest.map fun y => 2 * m - y)
        = (posTickAux lpos rpos dir decay gain done rest).map fun y => 2 * m - y := by
  intro rest
  induction rest with
  | nil => intro done; rfl
  | cons x rest ih =>
    intro done
    simp only [List.map_cons, posTickAux]
    rw [← List.map_append, posStep_reflect lpos rpos dir decay gain m x (done ++ rest) hm]
    rw [show (done.map fun y => 2 * m - y) ++
        [2 * m - posStep lpos rpos dir decay gain x (done ++ rest)]
        = (done ++ [posStep lpos rpos dir decay gain x (done ++ rest)]).map
            fun y => 2 * m - y by simp]
    rw [ih (done ++ [posStep lpos rpos dir decay gain x (done ++ rest)])]

theorem posTick_reflect (lpos rpos dir : ℚ) (decay : ℕ) (gain m : ℚ)
    (hm : lpos + rpos = 2 * m) (xs : List ℚ) :
    posTick lpos rpos dir decay gain (xs.map fun y => 2 * m - y)
      = (posTick lpos rpos dir decay gain xs).map fun y => 2 * m - y := by
  simpa [posTick] using posTickAux_reflect lpos rpos dir decay gain m hm xs []

/-! ### Self-exclusion is redundant -/

theorem stepParticle_self_mate (pL pR : Particle) (dir : ℚ) (decay : ℕ)
    (gain : ℚ) (p : Particle) (done rest : List Particle) :
    stepParticle pL pR dir decay gain p (done ++ p :: rest)
      = stepParticle pL pR dir decay gain p (done ++ rest) := by
  rw [stepParticle_eq, stepParticle_eq]
  have h : netForce pL.position pR.position dir decay p.position
        ((done ++ p :: rest).map Particle.position)
      = netForce pL.position pR.position dir decay p.position
        ((done ++ rest).map Particle.position) := by
    unfold netForce
    simp [List.map_append, List.sum_append, pairForce_self]
  rw [h]

theorem tickAllAux_eq_tickAux (pL pR : Particle) (dir : ℚ) (decay : ℕ)
    (gain : ℚ) :
    ∀ (rest done : List Particle),
      tickAllAux pL pR dir decay gain done rest
        = tickAux pL pR dir decay gain done rest := by
  intro rest
  induction rest with
  | nil => intro done; rfl
  | cons p rest ih =>
    intro done
    simp only [tickAllAux, tickAux, stepParticle_self_mate]
    rw [ih]

/-! ### Convergence analysis of the single-free-particle configuration -/

theorem update03_closed (x : ℚ) (h0 : 0 < x) (h6 : x < 6) :
    update03 0 6 1 1 (1 / 10) x = x + (1 / 5) * (3 - x) / (x * (6 - x)) := by
  have hx : x - 0 ≠ 0 := by rw [sub_zero]; exact h0.ne'
  have hx6 : x - 6 ≠ 0 := sub_ne_zero.mpr (ne_of_lt h6)
  have hs1 : sgn (x - 0) = 1 := by unfold sgn; rw [sub_zero, if_pos h0]
  have hr1 : rabs (x - 0) = x := by
    unfold rabs; rw [sub_zero, if_neg (not_lt.mpr h0.le)]
  have hs2 : sgn (x - 6) = -1 := by
    unfold sgn
    rw [if_neg (not_lt.mpr (by linarith : x - 6 ≤ 0)), if_pos (by linarith : x - 6 < 0)]
  have hr2 : rabs (x - 6) = 6 - x := by
    unfold rabs; rw [if_pos (by linarith : x - 6 < 0)]; ring
  simp only [update03, pairForce]
  rw [if_neg hx, if_neg hx6, hs1, hr1, hs2, hr2, pow_one, pow_one]
  have hx' : x ≠ 0 := h0.ne'
  have h6' : (6:ℚ) - x ≠ 0 := sub_ne_zero.mpr h6.ne'
  field_simp
  ring

theorem step03_bounds (x : ℚ) (h1 : 1 ≤ x) (h3 : x < 3) :
    x < update03 0 6 1 1 (1 / 10) x ∧ update03 0 6 1 1 (1 / 10) x < 3 ∧
      3 - update03 0 6 1 1 (1 / 10) x ≤ (44 / 45) * (3 - x) := by
  have h0 : 0 < x := by linarith
  have h6 : x < 6 := by linarith
  rw [update03_closed x h0 h6]
  have hd1 : (5:ℚ) ≤ x * (6 - x) := by nlinarith
  have hd2 : x * (6 - x) ≤ 9 := by nlinarith
  have hdpos : (0:ℚ) < x * (6 - x) := by nlinarith
  have he : (0:ℚ) < 3 - x := by linarith
  refine ⟨?_, ?_, ?_⟩
  · have hpos : 0 < (1 / 5) * (3 - x) / (x * (6 - x)) := by positivity
    linarith
  · have hlt : (1 / 5) * (3 - x) / (x * (6 - x)) < 3 - x := by
      rw [div_lt_iff₀ hdpos]
      nlinarith
    linarith
  · have hge : (3 - x) / 45 ≤ (1 / 5) * (3 - x) / (x * (6 - x)) := by
      rw [div_le_div_iff₀ (by norm_num) hdpos]
      nlinarith
    linarith

theorem seq03_zero : seq03 0 = 1 := rfl

theorem seq03_succ (n : ℕ) :
    seq03 (n + 1) = update03 0 6 1 1 (1 / 10) (seq03 n) := by
  simp only [seq03, run03, PARTICLE_LEFT_POSITION, PARTICLE_RIGHT_POSITION,
    directionRepulsive, FORCE_DECAY_POWER, FORCE_POSITION_GAIN_03,
    Function.iterate_succ_apply']

theorem seq03_inv (n : ℕ) : 1 ≤ seq03 n ∧ seq03 n < 3 := by
  induction n with
  | zero => rw [seq03_zero]; norm_num
  | succ n ih =>
    have h := step03_bounds (seq03 n) ih.1 ih.2
    rw [seq03_succ]
    exact ⟨by linarith [h.1, ih.1], h.2.1⟩

theorem seq03_mono (n : ℕ) : seq03 n < seq03 (n + 1) := by
  have ih := seq03_inv n
  rw [seq03_succ]
  exact (step03_bounds _ ih.1 ih.2).1

theorem seq03_gauge (n : ℕ) : 3 - seq03 n ≤ 2 * (44 / 45) ^ n := by
  induction n with
  | zero => rw [seq03_zero]; norm_num
  | succ n ih =>
    have hi := seq03_inv n
    have h := (step03_bounds _ hi.1 hi.2).2.2
    rw [seq03_succ]
    calc 3 - update03 0 6 1 1 (1 / 10) (seq03 n)
        ≤ (44 / 45) * (3 - seq03 n) := h
      _ ≤ (44 / 45) * (2 * (44 / 45) ^ n) :=
          mul_le_mul_of_nonneg_left ih (by norm_num)
      _ = 2 * (44 / 45) ^ (n + 1) := by ring

theorem seq03_disp (n : ℕ) :
    seq03 (n + 1) - seq03 n
      = (1 / 5) * (3 - seq03 n) / (seq03 n * (6 - seq03 n)) := by
  have hi := seq03_inv n
  rw [seq03_succ, update03_closed _ (by linarith [hi.1]) (by linarith [hi.2])]
  ring

theorem seq03_disp_anti (n : ℕ) :
    seq03 (n + 2) - seq03 (n + 1) < seq03 (n + 1) - seq03 n := by
  rw [seq03_disp, seq03_disp]
  have hx := seq03_inv n
  have hy := seq03_inv (n + 1)
  have hxy : seq03 n < seq03 (n + 1) := seq03_mono n
  have hdx : (0:ℚ) < seq03 n * (6 - seq03 n) := by nlinarith [hx.1, hx.2]
  have hdy : (0:ℚ) < seq03 (n + 1) * (6 - seq03 (n + 1)) := by
    nlinarith [hy.1, hy.2]
  rw [div_lt_div_iff₀ hdy hdx]
  nlinarith [hx.1, hx.2, hy.1, hy.2, hxy,
    mul_pos (sub_pos.mpr hxy) (by linarith [hx.2, hy.2] :
      (0:ℚ) < 6 - seq03 n - seq03 (n + 1))]

theorem seq03_tail (n : ℕ) (hn : 700 ≤ n) : |seq03 n - 3| < 1 / 1000000 := by
  have h3 := (seq03_inv n).2
  have hg := seq03_gauge n
  have hpow : ((44:ℚ) / 45) ^ n ≤ (44 / 45) ^ 700 :=
    pow_le_pow_of_le_one (by norm_num) (by norm_num) hn
  have hbig : (2:ℚ) * (44 / 45) ^ 700 < 1 / 1000000 := by norm_num
  rw [abs_of_nonpos (by linarith : seq03 n - 3 ≤ 0)]
  have h2 : (2:ℚ) * (44 / 45) ^ n ≤ 2 * (44 / 45) ^ 700 :=
    mul_le_mul_of_nonneg_left hpow (by norm_num)
  linarith

theorem posTick_reflectLR (lpos rpos dir : ℚ) (decay : ℕ) (gain : ℚ)
    (xs : List ℚ) :
    posTick lpos rpos dir decay gain (xs.map fun y => lpos + rpos - y)
      = (posTick lpos rpos dir decay gain xs).map fun y => lpos + rpos - y := by
  have h : (fun y : ℚ => lpos + rpos - y)
      = fun y => 2 * ((lpos + rpos) / 2) - y := by
    funext y; ring
  rw [h]
  exact posTick_reflect lpos rpos dir decay gain ((lpos + rpos) / 2) (by ring) xs

theorem posTicks_reflectLR (lpos rpos dir : ℚ) (decay : ℕ) (gain : ℚ)
    (n : ℕ) (xs : List ℚ) :
    (posTick lpos rpos dir decay gain)^[n] (xs.map fun y => lpos + rpos - y)
      = ((posTick lpos rpos dir decay gain)^[n] xs).map fun y => lpos + rpos - y := by
  induction n generalizing xs with
  | zero => rfl
  | succ n ih =>
    rw [Function.iterate_succ_apply, Function.iterate_succ_apply,
      posTick_reflectLR, ih]

/-! ## The claims -/

/-- C1, counterexample.  In the `..._04_02` initial configuration
(free particles at `1` and `2`, boundaries `0` and `6`, repulsive,
`decay = 1`, `gain = 0.03`), the accumulated force of the second free
particle after one tick is NOT the sum of the pairwise contributions
computed at the positions held at the start of the tick: the first
particle has already moved when the second one accumulates its force. -/
theorem tick_not_synchronous_cex :
    ((tick particle_L particle_R directionRepulsive FORCE_DECAY_POWER
          FORCE_POSITION_GAIN_N [particle_1, particle_2]).getD 1 particle_1).total_force
      ≠ pairForce directionRepulsive FORCE_DECAY_POWER particle_2.position particle_L.position
        + pairForce directionRepulsive FORCE_DECAY_POWER particle_2.position particle_R.position
        + pairForce directionRepulsive FORCE_DECAY_POWER particle_2.position particle_1.position := by
  norm_num [tick, tickAux, stepParticle, Particle.compute_force, Particle.move,
    pairForce, sgn, rabs, particle_L, particle_R, particle_1,
    particle_2, directionRepulsive, FORCE_DECAY_POWER, FORCE_POSITION_GAIN_N,
    PARTICLE_LEFT_POSITION, PARTICLE_RIGHT_POSITION]

/-- C1, amended.  The tick is a sequential (Gauss–Seidel) sweep, not a
synchronous Euler step: the `i`-th free particle's update reads the
already-updated positions of the particles before it in the list
(`(tick ..).take i`) and the pre-tick positions of the particles after
it (`ps.drop (i+1)`), and its accumulated force and position are
exactly those produced by one loop body over that mixed snapshot. -/
theorem tick_gauss_seidel (pL pR : Particle) (dir : ℚ) (decay : ℕ)
    (gain : ℚ) (ps : List Particle) (i : ℕ) (d : Particle)
    (h : i < ps.length) :
    (tick pL pR dir decay gain ps).getD i d
      = stepParticle pL pR dir decay gain (ps.getD i d)
          ((tick pL pR dir decay gain ps).take i ++ ps.drop (i + 1)) := by
  simpa [tick] using tickAux_getD pL pR dir decay gain d i [] ps h

/-- C1, witness for the amended theorem at the `..._04_02` initial
configuration, index `1`. -/
theorem tick_gauss_seidel_witness :
    1 < ([particle_1, particle_2] : List Particle).length ∧
    (tick particle_L particle_R directionRepulsive FORCE_DECAY_POWER
        FORCE_POSITION_GAIN_N [particle_1, particle_2]).getD 1 particle_1
      = stepParticle particle_L particle_R directionRepulsive FORCE_DECAY_POWER
          FORCE_POSITION_GAIN_N
          (([particle_1, particle_2] : List Particle).getD 1 particle_1)
          ((tick particle_L particle_R directionRepulsive FORCE_DECAY_POWER
              FORCE_POSITION_GAIN_N [particle_1, particle_2]).take 1
            ++ ([particle_1, particle_2] : List Particle).drop 2) :=
  ⟨by norm_num,
    tick_gauss_seidel particle_L particle_R directionRepulsive FORCE_DECAY_POWER
      FORCE_POSITION_GAIN_N [particle_1, particle_2] 1 particle_1 (by norm_num)⟩

/-- C2.  The `direction`-based scripts implement exactly the claimed
law (in repulsive mode the legacy script agrees with them), but the
legacy script `particles_1d_line_segment_03_02.py.py` computes
`sign(dx) ** IS_REPULSIVE / |dx| ** decay`, which in its documented
attractive mode (`IS_REPULSIVE = 0`) yields `+1` at `a = 1, b = 0`
where the claimed law (`direction = -1`) yields `-1` — the code
contradicts its own `0: Attractive force` comment. -/
theorem legacy_attractive_divergence :
    (∀ (decay : ℕ) (a b : ℚ), legacyPairForce 1 decay a b = pairForce 1 decay a b)
      ∧ legacyPairForce 0 FORCE_DECAY_POWER 1 0 = 1
      ∧ pairForce (-1) FORCE_DECAY_POWER 1 0 = -1
      ∧ legacyPairForce 0 FORCE_DECAY_POWER 1 0
          ≠ pairForce (-1) FORCE_DECAY_POWER 1 0 := by
  refine ⟨?_, ?_, ?_, ?_⟩
  · intro decay a b
    simp [legacyPairForce, pairForce]
  · norm_num [legacyPairForce, sgn, rabs, FORCE_DECAY_POWER]
  · norm_num [pairForce, sgn, rabs, FORCE_DECAY_POWER]
  · norm_num [legacyPairForce, pairForce, sgn, rabs, FORCE_DECAY_POWER]

/-- C3.  The position-integration step of every tick sets each free
particle's position to its pre-tick position plus `gain` times the
force accumulated for it during that same tick; the configured gains
(`0.1` and `0.03`) are positive. -/
theorem position_integration :
    (0 : ℚ) < FORCE_POSITION_GAIN_03 ∧ (0 : ℚ) < FORCE_POSITION_GAIN_N ∧
    ∀ (pL pR : Particle) (dir : ℚ) (decay : ℕ) (gain : ℚ)
      (ps : List Particle) (i : ℕ) (d : Particle), i < ps.length →
      ((tick pL pR dir decay gain ps).getD i d).position
        = (ps.getD i d).position
          + gain * ((tick pL pR dir decay gain ps).getD i d).total_force := by
  refine ⟨by norm_num [FORCE_POSITION_GAIN_03], by norm_num [FORCE_POSITION_GAIN_N], ?_⟩
  intro pL pR dir decay gain ps i d h
  have hg := tickAux_getD pL pR dir decay gain d i [] ps h
  simp only [tick]
  rw [hg, stepParticle_eq]

/-- C3, witness at a one-particle list. -/
theorem position_integration_witness :
    0 < ([particle_1] : List Particle).length ∧
    ((tick particle_L particle_R directionRepulsive FORCE_DECAY_POWER
          FORCE_POSITION_GAIN_N [particle_1]).getD 0 particle_1).position
      = (([particle_1] : List Particle).getD 0 particle_1).position
        + FORCE_POSITION_GAIN_N *
          ((tick particle_L particle_R directionRepulsive FORCE_DECAY_POWER
              FORCE_POSITION_GAIN_N [particle_1]).getD 0 particle_1).total_force :=
  ⟨by norm_num,
    position_integration.2.2 particle_L particle_R directionRepulsive
      FORCE_DECAY_POWER FORCE_POSITION_GAIN_N [particle_1] 0 particle_1 (by norm_num)⟩

/-- C4.  A single free particle exactly at the midpoint `(L + R) / 2`
between the two fixed particles, in repulsive mode, accumulates force
exactly `0` in a tick, and its position is unchanged by any number of
ticks of the single-free-particle script. -/
theorem midpoint_equilibrium (L R : ℚ) (decay : ℕ) (gain : ℚ) :
    pairForce directionRepulsive decay ((L + R) / 2) L
        + pairForce directionRepulsive decay ((L + R) / 2) R = 0
      ∧ ∀ n : ℕ,
          run03 L R directionRepulsive decay gain n ((L + R) / 2) = (L + R) / 2 :=
  ⟨pairForce_midpoint directionRepulsive decay L R,
    fun n => run03_midpoint L R directionRepulsive decay gain n⟩

/-- C5.  The two fixed boundary particles are never modified by any
number of ticks: their positions (and every other field) are those
given at construction; only the free list is replaced. -/
theorem fixed_particles_immutable (dir : ℚ) (decay : ℕ) (gain : ℚ)
    (n : ℕ) (s : SimState) :
    (runSim dir decay gain n s).particle_L = s.particle_L
      ∧ (runSim dir decay gain n s).particle_R = s.particle_R := by
  induction n with
  | zero => exact ⟨rfl, rfl⟩
  | succ n ih =>
    rw [runSim, Function.iterate_succ_apply']
    rw [runSim] at ih
    exact ⟨ih.1, ih.2⟩

/-- C6.  The force law and the tick are total: the guarded branch
returns `0` exactly when the separation is zero, and in the other
branch the divisor `|dx| ^ decay` is nonzero, so the division is never
taken at a zero denominator (in this exact-rational embedding there is
no not-a-number or infinite value to produce); a tick always returns a
free list of the same length, raising no fault. -/
theorem force_law_total (dir : ℚ) (decay : ℕ) (a b : ℚ) :
    (a - b = 0 → pairForce dir decay a b = 0)
      ∧ (a - b ≠ 0 → (rabs (a - b)) ^ decay ≠ 0
          ∧ pairForce dir decay a b = dir * sgn (a - b) / (rabs (a - b)) ^ decay)
      ∧ ∀ (pL pR : Particle) (gain : ℚ) (ps : List Particle),
          (tick pL pR dir decay gain ps).length = ps.length := by
  refine ⟨?_, ?_, ?_⟩
  · intro h
    simp [pairForce, h]
  · intro h
    constructor
    · apply pow_ne_zero
      unfold rabs
      split_ifs with hlt
      · exact neg_ne_zero.mpr h
      · exact h
    · simp [pairForce, h]
  · intro pL pR gain ps
    simpa [tick] using tickAux_length pL pR dir decay gain [] ps

/-- C6, witness: coincident pair gives `0`; a separated pair has a
nonzero divisor. -/
theorem force_law_total_witness :
    ((5:ℚ) - 5 = 0) ∧ pairForce 1 1 5 5 = 0
      ∧ ((2:ℚ) - 1 ≠ 0) ∧ (rabs ((2:ℚ) - 1)) ^ 1 ≠ 0 :=
  ⟨by norm_num, (force_law_total 1 1 5 5).1 (by norm_num), by norm_num,
    ((force_law_total 1 1 2 1).2.1 (by norm_num)).1⟩

/-- C7, counterexample.  The configuration with free particles at `2`
and `4` is symmetric about the midpoint `3` of the boundaries `0` and
`6` (`2 + 4 = 0 + 6`), but after one tick of the multi-particle script
the two positions no longer mirror each other
(their sum is no longer `0 + 6`): the sequential update breaks the
symmetry. -/
theorem symmetry_not_preserved_cex :
    particleSym1.position + particleSym2.position
        = particle_L.position + particle_R.position
      ∧ ((tick particle_L particle_R directionRepulsive FORCE_DECAY_POWER
            FORCE_POSITION_GAIN_N [particleSym1, particleSym2]).getD 0 particle_1).position
        + ((tick particle_L particle_R directionRepulsive FORCE_DECAY_POWER
            FORCE_POSITION_GAIN_N [particleSym1, particleSym2]).getD 1 particle_1).position
        ≠ particle_L.position + particle_R.position := by
  constructor
  · norm_num [particleSym1, particleSym2, particle_L, particle_R,
      PARTICLE_LEFT_POSITION, PARTICLE_RIGHT_POSITION]
  · norm_num [tick, tickAux, stepParticle, Particle.compute_force, Particle.move,
      pairForce, sgn, rabs, particle_L, particle_R, particleSym1,
      particleSym2, directionRepulsive, FORCE_DECAY_POWER, FORCE_POSITION_GAIN_N,
      PARTICLE_LEFT_POSITION, PARTICLE_RIGHT_POSITION]

/-- C7, amended.  What does hold is order-preserving mirror
equivariance: reflecting every free particle about the midpoint of the
two fixed particles (keeping list order) and running `N` ticks yields
exactly the reflection of the positions obtained by running `N` ticks
on the original configuration.  A configuration that is symmetric as a
set of positions does not in general stay symmetric, because the
sequential update treats the two halves asymmetrically. -/
theorem ticks_mirror_equivariant (pL pR : Particle) (dir : ℚ) (decay : ℕ)
    (gain : ℚ) (n : ℕ) (ps : List Particle) :
    (ticks pL pR dir decay gain n
        (ps.map fun p =>
          { p with position := pL.position + pR.position - p.position,
                   total_force := -p.total_force })).map Particle.position
      = ((ticks pL pR dir decay gain n ps).map Particle.position).map
          (fun x => pL.position + pR.position - x) := by
  rw [ticks_map_position, ticks_map_position]
  have hmap : ((ps.map fun p =>
      { p with position := pL.position + pR.position - p.position,
               total_force := -p.total_force }).map Particle.position)
      = (ps.map Particle.position).map
          fun y => pL.position + pR.position - y := by
    simp [List.map_map]
  rw [hmap]
  exact posTicks_reflectLR pL.position pR.position dir decay gain n
    (ps.map Particle.position)

/-- C8.  In the single-free-particle configuration of the source
(boundaries `0` and `6`, repulsive, `decay = 1`, `gain = 0.1`, start
at `1`) the position sequence increases strictly toward `3`, stays
below `3`, its per-tick displacement is strictly decreasing from the
very first step, and from tick `700` on the position is within
`10⁻⁶` of `3`. -/
theorem seq03_converges :
    (∀ n : ℕ, seq03 n < seq03 (n + 1) ∧ seq03 n < 3)
      ∧ (∀ n : ℕ, seq03 (n + 2) - seq03 (n + 1) < seq03 (n + 1) - seq03 n)
      ∧ (∀ n : ℕ, 700 ≤ n → |seq03 n - 3| < 1 / 1000000) :=
  ⟨fun n => ⟨seq03_mono n, (seq03_inv n).2⟩, seq03_disp_anti, seq03_tail⟩

/-- C8, witness at tick `700`. -/
theorem seq03_converges_witness :
    700 ≤ 700 ∧ |seq03 700 - 3| < 1 / 1000000 :=
  ⟨le_refl 700, seq03_converges.2.2 700 (le_refl 700)⟩

/-- C9.  The relaxation is deterministic and depends only on the
initial positions and the configuration: two free lists with the same
positions (names, colors and stale `total_force` values may differ)
and fixed particles at the same positions produce identical position
lists after any number of ticks. -/
theorem ticks_deterministic (dir : ℚ) (decay : ℕ) (gain : ℚ)
    (pL pR pL' pR' : Particle) (ps qs : List Particle) (n : ℕ)
    (hL : pL.position = pL'.position) (hR : pR.position = pR'.position)
    (hps : ps.map Particle.position = qs.map Particle.position) :
    (ticks pL pR dir decay gain n ps).map Particle.position
      = (ticks pL' pR' dir decay gain n qs).map Particle.position := by
  rw [ticks_map_position, ticks_map_position, hL, hR, hps]

/-- C9, witness: same position, different name, color and stale force. -/
theorem ticks_deterministic_witness :
    ([particle_1] : List Particle).map Particle.position
        = ([⟨1, "b", "go", 7⟩] : List Particle).map Particle.position
      ∧ (ticks particle_L particle_R directionRepulsive FORCE_DECAY_POWER
            FORCE_POSITION_GAIN_N 2 [particle_1]).map Particle.position
        = (ticks particle_L particle_R directionRepulsive FORCE_DECAY_POWER
            FORCE_POSITION_GAIN_N 2 [⟨1, "b", "go", 7⟩]).map Particle.position :=
  ⟨by norm_num [particle_1],
    ticks_deterministic directionRepulsive FORCE_DECAY_POWER FORCE_POSITION_GAIN_N
      particle_L particle_R particle_L particle_R [particle_1] [⟨1, "b", "go", 7⟩] 2
      rfl rfl (by norm_num [particle_1])⟩

/-- C10.  Skipping the particle's own slot in the mate loop is
redundant: the variant tick that also accumulates each particle's
force against itself is extensionally equal to the tick, because the
self-contribution falls into the `dx == 0` branch and adds exactly
`0`. -/
theorem self_exclusion_redundant (pL pR : Particle) (dir : ℚ) (decay : ℕ)
    (gain : ℚ) (ps : List Particle) :
    tickAll pL pR dir decay gain ps = tick pL pR dir decay gain ps :=
  tickAllAux_eq_tickAux pL pR dir decay gain ps []

end ParticlesRelax
